import Mathlib

/-!
Shallow embedding of the `noisy_keyboard` key-binding / configuration
persistence core (`src/core/config_manager.py` and
`src/core/key_binding.py`).

Python strings are modelled as Lean `String`; the handful of `str`
methods the code uses (`lower`, `strip`, `startswith`, `endswith`,
`replace`, `isdigit`, slicing, `os.path.basename`) are given executable
structural-recursion implementations over the character list so that
concrete runs reduce inside the kernel.

The filesystem is modelled as an association list from existing file
path to file size; `datetime.now()` is passed in as an explicit
parameter.  Python dicts (insertion ordered, unique keys) are modelled
as association lists with position-preserving update.
-/

namespace NoisyKeyboard

/-- Python `str.lower` (ASCII case folding, which is all the code relies on). -/
def pyLower (s : String) : String := String.mk (s.data.map Char.toLower)

/-- Python `str.strip()`: remove leading and trailing whitespace. -/
def pyStrip (s : String) : String :=
  String.mk (((s.data.dropWhile Char.isWhitespace).reverse.dropWhile Char.isWhitespace).reverse)

/-- Python `str.startswith`. -/
def pyStartsWith (s pre : String) : Bool := pre.data.isPrefixOf s.data

/-- Python `str.endswith`. -/
def pyEndsWith (s post : String) : Bool := post.data.reverse.isPrefixOf s.data.reverse

/-- Python `str.isdigit` (restricted to ASCII digits): non-empty and all digits. -/
def pyIsDigit (s : String) : Bool := !s.data.isEmpty && s.data.all Char.isDigit

/-- Python `s[1:]`. -/
def pyDrop1 (s : String) : String := String.mk (s.data.drop 1)

/-- Numeric value of an all-digit string, as computed by Python `int`. -/
def digitsToNat (s : String) : Nat := s.data.foldl (fun n c => n * 10 + (c.toNat - 48)) 0

/-- Fuel-indexed worker for `pyReplace`; the fuel is the length of the
remaining character list, so the recursion is structural on `Nat` and the
kernel can evaluate it. -/
def replaceAllFuel (pat rep : List Char) : Nat → List Char → List Char
  | 0, l => l
  | _ + 1, [] => []
  | fuel + 1, c :: rest =>
    if pat.isPrefixOf (c :: rest) && !pat.isEmpty then
      rep ++ replaceAllFuel pat rep fuel ((c :: rest).drop pat.length)
    else
      c :: replaceAllFuel pat rep fuel rest

/-- Python `str.replace`: replace every occurrence of `pat` by `rep`
(left to right, non-overlapping).  The code never calls it with an empty
pattern. -/
def pyReplace (s pat rep : String) : String :=
  String.mk (replaceAllFuel pat.data rep.data s.data.length s.data)

/-- Python `os.path.basename` / `pathlib.Path.name`: the component after
the last `/`.  (The two Python functions agree on the slash-free file
paths this program stores.) -/
def pyBasename (s : String) : String :=
  String.mk ((s.data.reverse.takeWhile (fun c => c ≠ '/')).reverse)

/-! ## Python dicts as association lists -/

/-- Python `dict.get(k)`: value of the entry with key `k`, if present. -/
def dictGet (d : List (String × String)) (k : String) : Option String :=
  (d.find? (fun p => p.1 = k)).map (fun p => p.2)

/-- Python `d[k] = v`: update the existing entry in place (keeping its
position) or append a new entry at the end. -/
def dictSet (d : List (String × String)) (k v : String) : List (String × String) :=
  if d.any (fun p => p.1 = k) then
    d.map (fun p => if p.1 = k then (k, v) else p)
  else
    d ++ [(k, v)]

/-- Python `del d[k]`. -/
def dictDel (d : List (String × String)) (k : String) : List (String × String) :=
  d.filter (fun p => p.1 ≠ k)

/-! ## KeyBindingManager: key normalization and the standard-key vocabulary -/

namespace KeyBindingManager

/-- Alias table of `KeyBindingManager._normalize_key` (`key_mapping` in the
source), in source order. -/
def key_mapping : List (String × String) :=
  [(" ", "space"),
   ("space_bar", "space"),
   ("return", "enter"),
   ("back_space", "backspace"),
   ("del", "delete"),
   ("esc", "escape"),
   ("command", "cmd"),
   ("windows", "cmd"),
   ("win", "cmd"),
   ("option", "alt"),
   ("capslock", "caps_lock"),
   ("caps", "caps_lock"),
   ("pgup", "page_up"),
   ("pgdn", "page_down"),
   ("scrolllock", "scroll_lock"),
   ("scroll", "scroll_lock"),
   ("prtsc", "print_screen"),
   ("prtscr", "print_screen"),
   ("snapshot", "print_screen")]

/-- Condition of the numpad branch of `_normalize_key`: the (lowered,
stripped) key starts with `numpad_` or `num_`, and after stripping every
occurrence of those prefixes the remainder is a digit string or one of the
five operator names. -/
def numpadMatch (k : String) : Bool :=
  (pyStartsWith k "numpad_" || pyStartsWith k "num_") &&
    (let nk := pyReplace (pyReplace k "numpad_" "") "num_" ""
     pyIsDigit nk || decide (nk ∈ ["add", "subtract", "multiply", "divide", "decimal"]))

/-- Result of the numpad branch: the prefix `num_` re-attached to the
stripped remainder. -/
def numpadResult (k : String) : String :=
  "num_" ++ pyReplace (pyReplace k "numpad_" "") "num_" ""

/-- Condition of the function-key branch of `_normalize_key`:
`key.startswith("f") and key[1:].isdigit()` with `1 <= int(key[1:]) <= 12`.
(The branch returns the key unchanged, as does the final fallthrough.) -/
def fkeyMatch (k : String) : Bool :=
  pyStartsWith k "f" && pyIsDigit (pyDrop1 k) &&
    (let n := digitsToNat (pyDrop1 k); decide (1 ≤ n ∧ n ≤ 12))

/-- Embedding of `KeyBindingManager._normalize_key`.  Empty input returns
`"unknown"`; otherwise the key is lowered and stripped, looked up in the
alias table, then run through the numpad and function-key branches; the
final fallthrough returns the lowered, stripped key itself. -/
def normalize_key (key : String) : String :=
  if key = "" then "unknown"
  else
    let k := pyStrip (pyLower key)
    match dictGet key_mapping k with
    | some v => v
    | none =>
      if numpadMatch k then numpadResult k
      else if fkeyMatch k then k
      else k

/-- Embedding of `KeyBindingManager._get_standard_keys`: letters, digits,
f1–f12, then the named special keys and punctuation, in source order. -/
def standard_keys : List String :=
  ((List.range 26).map fun i => String.mk [Char.ofNat (97 + i)]) ++
  ((List.range 10).map fun i => String.mk [Char.ofNat (48 + i)]) ++
  ((List.range 12).map fun i => "f" ++ toString (i + 1)) ++
  ["space", "enter", "backspace", "tab", "escape",
   "shift", "ctrl", "alt", "cmd", "caps_lock",
   "left", "right", "up", "down",
   "home", "end", "page_up", "page_down",
   "insert", "delete", "print_screen", "scroll_lock", "pause",
   "num_lock", "num_0", "num_1", "num_2", "num_3", "num_4",
   "num_5", "num_6", "num_7", "num_8", "num_9",
   "num_add", "num_subtract", "num_multiply", "num_divide", "num_decimal",
   "`", "-", "=", "[", "]", "\\", ";", String.mk [Char.ofNat 39], ",", ".", "/"]

end KeyBindingManager

/-! ## Data model of the ConfigManager -/

/-- Sound descriptor (`sound_info` dicts of `config_manager.py`).  Where
the Python dict may lack the `is_custom_path` key, `add_sound_to_library`
fills in `False`, so the field is total here. -/
structure SoundInfo where
  id : String
  filename : String
  path : String
  size : Nat
  upload_time : String
  is_custom_path : Bool
deriving DecidableEq, Repr

/-- In-memory state of `ConfigManager`: the one settings field the
modelled operations consult, the key→sound-path binding dict, and the
sound library list. -/
structure Config where
  allow_custom_sound_paths : Bool
  key_bindings : List (String × String)
  sound_library : List SoundInfo
deriving DecidableEq, Repr

/-- Filesystem model: association list from existing file path to size.
`os.path.exists p` is membership of `p` among the keys. -/
abbrev FS : Type := List (String × Nat)

/-- Python `os.path.exists`. -/
def fsExists (fs : FS) (p : String) : Bool :=
  (List.any fs fun e => e.1 = p)

/-- Python `os.path.getsize` (only called after an existence check). -/
def fsGetSize (fs : FS) (p : String) : Nat :=
  ((List.find? (fun e => e.1 = p) fs).map (fun e => e.2)).getD 0

/-- Python `Path.unlink`: the file no longer exists afterwards. -/
def fsDelete (fs : FS) (p : String) : FS :=
  List.filter (fun e => e.1 ≠ p) fs

namespace ConfigManager

/-- Embedding of `ConfigManager.load_config`.  The file's bytes are
`contents` (`none` when the file does not exist or cannot be read, both of
which Python turns into the `else`/`except` branch); `parse` is JSON
decoding, `none` meaning `json.JSONDecodeError`.  The function is total:
every failure returns `default_config`, none is propagated. -/
def load_config {D : Type} (contents : Option String) (parse : String → Option D)
    (default_config : D) : D :=
  match contents with
  | some s =>
    match parse s with
    | some doc => doc
    | none => default_config
  | none => default_config

/-- Embedding of `ConfigManager.get_key_binding`: raw dict lookup. -/
def get_key_binding (c : Config) (key : String) : Option String :=
  dictGet c.key_bindings key

/-- Truthiness of the `sound_path` argument of `set_key_sound`
(`None` and the empty string are falsy). -/
def truthy : Option String → Bool
  | none => false
  | some s => s ≠ ""

/-- Embedding of `ConfigManager.set_key_sound`: a truthy path is stored
under the key; otherwise the key's entry is deleted if present. -/
def set_key_sound (c : Config) (key : String) (sound_path : Option String) : Config :=
  if truthy sound_path then
    { c with key_bindings := dictSet c.key_bindings key (sound_path.getD "") }
  else
    { c with key_bindings := dictDel c.key_bindings key }

/-- Embedding of `ConfigManager.add_sound_to_library`: append.  (The
Python default-fill of a missing `is_custom_path` key is the identity
here because the field is total.) -/
def add_sound_to_library (c : Config) (sound_info : SoundInfo) : Config :=
  { c with sound_library := c.sound_library ++ [sound_info] }

/-- Filename of the bundled default resource, the hard-coded exception of
`remove_sound_from_library`. -/
def bundledDefaultFilename : String := "space-animal-104986.mp3"

/-- First element of the library matching `sound.get("id") == sound_id or
sound.get("path") == sound_id`, together with the library with that
element removed (`del self.sound_library[i]`). -/
def removeFirstMatch (sound_id : String) : List SoundInfo → Option (SoundInfo × List SoundInfo)
  | [] => none
  | s :: rest =>
    if s.id = sound_id ∨ s.path = sound_id then some (s, rest)
    else
      match removeFirstMatch sound_id rest with
      | some (m, rest2) => some (m, s :: rest2)
      | none => none

/-- Embedding of `ConfigManager.remove_sound_from_library`.  Returns the
boolean result, the new config state and the new filesystem.  The
physical file is unlinked only when the matched sound is not a custom
path, its file exists, and its name differs from the bundled default's;
then the matched library entry is deleted and every key binding whose
value equals `sound_id` is removed. -/
def remove_sound_from_library (c : Config) (fs : FS) (sound_id : String) :
    Bool × Config × FS :=
  match removeFirstMatch sound_id c.sound_library with
  | none => (false, c, fs)
  | some (sound, newLib) =>
    let fs2 :=
      if sound.is_custom_path = false ∧ fsExists fs sound.path = true ∧
          pyBasename sound.path ≠ bundledDefaultFilename then
        fsDelete fs sound.path
      else fs
    let keys_to_remove := (c.key_bindings.filter fun e => e.2 = sound_id).map fun e => e.1
    let kb2 := keys_to_remove.foldl dictDel c.key_bindings
    (true, { c with sound_library := newLib, key_bindings := kb2 }, fs2)

/-- Display name used by `get_sound_library`: custom-path entries carry a
folder-glyph marker. -/
def displayName (s : SoundInfo) : String :=
  if s.is_custom_path then "📁 " ++ s.filename else s.filename

/-- One loop iteration of `get_sound_library`: skip entries with an empty
filename or path or a missing file, otherwise insert display-name → path
into the dict. -/
def soundLibStep (fs : FS) (library : List (String × String)) (sound : SoundInfo) :
    List (String × String) :=
  if sound.filename ≠ "" ∧ sound.path ≠ "" ∧ fsExists fs sound.path = true then
    dictSet library (displayName sound) sound.path
  else library

/-- Embedding of `ConfigManager.get_sound_library`: the name→path dict
built over the library in iteration order. -/
def get_sound_library (c : Config) (fs : FS) : List (String × String) :=
  c.sound_library.foldl (soundLibStep fs) []

/-- Embedding of `ConfigManager.add_custom_sound_path`, with the
filesystem and `datetime.now()` passed explicitly.  Checks, in source
order: the `allow_custom_sound_paths` setting, file existence, the
(case-insensitive) `.mp3` extension, and absence of a library entry with
the same path; on success appends a custom-path descriptor whose id is
the path. -/
def add_custom_sound_path (c : Config) (fs : FS) (now : String) (file_path : String) :
    Bool × Config :=
  if c.allow_custom_sound_paths = false then (false, c)
  else if fsExists fs file_path = false then (false, c)
  else if pyEndsWith (pyLower file_path) ".mp3" = false then (false, c)
  else
    let sound_info : SoundInfo :=
      { id := file_path
        filename := pyBasename file_path
        path := file_path
        size := fsGetSize fs file_path
        upload_time := now
        is_custom_path := true }
    if c.sound_library.any (fun s => s.path = file_path) then (false, c)
    else (true, add_sound_to_library c sound_info)

end ConfigManager

namespace KeyBindingManager

/-- Hard-coded default sound id of `KeyBindingManager`. -/
def default_sound_id : String := "default_sound_001"

/-- Embedding of `KeyBindingManager.get_key_sound`: normalize, look up
the binding, and substitute the default sound id for a missing (or
falsy) binding. -/
def get_key_sound (c : Config) (key : String) : String :=
  let sound_id := ConfigManager.get_key_binding c (normalize_key key)
  match sound_id with
  | some s => if s = "" then default_sound_id else s
  | none => default_sound_id

/-- Embedding of `KeyBindingManager.set_key_sound`: normalize, delegate
to the config manager, return `True`.  (The `except` branch is
unreachable in the model.) -/
def set_key_sound (c : Config) (key : String) (sound_path : Option String) :
    Bool × Config :=
  (true, ConfigManager.set_key_sound c (normalize_key key) sound_path)

/-- Embedding of `KeyBindingManager.initialize_key_bindings`: when no
bindings are persisted and the (file-filtered) sound library is
non-empty, bind every standard key to the first value of that library
mapping. -/
def initialize_key_bindings (c : Config) (fs : FS) : Config :=
  if c.key_bindings ≠ [] then c
  else
    match ConfigManager.get_sound_library c fs with
    | [] => c
    | (_, default_sound_path) :: _ =>
      standard_keys.foldl (fun cfg k => ConfigManager.set_key_sound cfg k (some default_sound_path)) c

end KeyBindingManager

/-! ## Dictionary lemmas -/

theorem find?_map_update (d : List (String × String)) (k v k' : String) :
    (d.map (fun p => if p.1 = k then (k, v) else p)).find? (fun p => p.1 = k') =
      if k' = k then (d.find? (fun p => p.1 = k)).map (fun _ => (k, v))
      else d.find? (fun p => p.1 = k') := by
  induction d with
  | nil => simp
  | cons hd tl ih =>
    simp only [List.map_cons]
    by_cases h1 : hd.1 = k
    · rw [if_pos h1]
      by_cases h2 : k' = k
      · subst h2
        rw [List.find?_cons_of_pos _ (by simp), List.find?_cons_of_pos _ (by simpa using h1)]
        simp
      · have hkv : ¬ (((k, v) : String × String).1 = k') := fun hh => h2 hh.symm
        have hhd : ¬ (hd.1 = k') := h1 ▸ fun hh => h2 hh.symm
        rw [List.find?_cons_of_neg _ (by simpa using hkv), if_neg h2,
          List.find?_cons_of_neg _ (by simpa using hhd), ih, if_neg h2]
    · rw [if_neg h1]
      by_cases h2 : hd.1 = k'
      · have h3 : ¬ (k' = k) := fun hh => h1 (h2.trans hh)
        rw [List.find?_cons_of_pos _ (by simpa using h2), if_neg h3,
          List.find?_cons_of_pos _ (by simpa using h2)]
      · rw [List.find?_cons_of_neg _ (by simpa using h2)]
        by_cases h3 : k' = k
        · rw [if_pos h3, List.find?_cons_of_neg _ (by simpa using h1), ih, if_pos h3]
        · rw [if_neg h3, List.find?_cons_of_neg _ (by simpa using h2), ih, if_neg h3]

theorem dictGet_dictSet (d : List (String × String)) (k v k' : String) :
    dictGet (dictSet d k v) k' = if k' = k then some v else dictGet d k' := by
  unfold dictGet dictSet
  by_cases hany : d.any (fun p => p.1 = k)
  · simp only [hany, if_true]
    rw [find?_map_update]
    by_cases h : k' = k
    · have hex : ∃ x ∈ d, x.1 = k := by simpa using hany
      have hsome : (d.find? (fun p => p.1 = k)).isSome := by
        rw [List.find?_isSome]
        simpa using hex
      match hfind : d.find? (fun p : String × String => p.1 = k) with
      | some a => simp [h, hfind]
      | none => rw [hfind] at hsome; simp at hsome
    · simp [h]
  · simp only [hany, Bool.false_eq_true, if_false]
    have hnone : d.find? (fun p : String × String => p.1 = k) = none := by
      rw [List.find?_eq_none]
      intro x hx hpx
      exact hany (List.any_eq_true.mpr ⟨x, hx, hpx⟩)
    by_cases h : k' = k
    · subst h
      simp [List.find?_append, hnone]
    · have hsingle : List.find? (fun p : String × String => p.1 = k') [(k, v)] = none := by
        simp
        exact fun hh => h hh.symm
      simp [List.find?_append, hsingle, h]

theorem dictGet_dictDel (d : List (String × String)) (k k' : String) :
    dictGet (dictDel d k) k' = if k' = k then none else dictGet d k' := by
  unfold dictGet dictDel
  by_cases h : k' = k
  · subst h
    simp only [if_true]
    have hnone : List.find? (fun p : String × String => p.1 = k')
        (d.filter fun p => p.1 ≠ k') = none := by
      rw [List.find?_eq_none]
      intro x hx
      have := (List.mem_filter.mp hx).2
      simpa using this
    simp [hnone]
  · simp only [h, if_false]
    induction d with
    | nil => simp
    | cons hd tl ih =>
      simp only [List.filter_cons]
      by_cases h1 : hd.1 = k
      · have h2 : ¬ (hd.1 = k') := fun hh => h (hh.symm.trans h1)
        rw [if_neg (by simpa using h1), List.find?_cons_of_neg _ (by simpa using h2)]
        exact ih
      · rw [if_pos (by simpa using h1)]
        by_cases h2 : hd.1 = k'
        · rw [List.find?_cons_of_pos _ (by simpa using h2),
            List.find?_cons_of_pos _ (by simpa using h2)]
        · rw [List.find?_cons_of_neg _ (by simpa using h2),
            List.find?_cons_of_neg _ (by simpa using h2)]
          exact ih

/-! ## Fold lemmas -/

theorem dictGet_foldl_dictDel (ks : List String) (d : List (String × String)) (k : String) :
    dictGet (ks.foldl dictDel d) k = if k ∈ ks then none else dictGet d k := by
  induction ks generalizing d with
  | nil => simp
  | cons k0 tl ih =>
    simp only [List.foldl_cons]
    rw [ih]
    by_cases h0 : k ∈ tl
    · simp [h0]
    · rw [if_neg h0, dictGet_dictDel]
      by_cases h1 : k = k0
      · simp [h1]
      · simp [h1, h0]

theorem fsExists_fsDelete (fs : FS) (p : String) : fsExists (fsDelete fs p) p = false := by
  rw [Bool.eq_false_iff]
  intro hc
  obtain ⟨e, he, hep⟩ := List.any_eq_true.mp hc
  have hne := (List.mem_filter.mp he).2
  simp only [decide_eq_true_eq] at hep
  rw [hep] at hne
  simp at hne

/-- Keys whose binding value is `q` appear among the keys scheduled for
removal by `remove_sound_from_library`. -/
theorem mem_keys_to_remove (d : List (String × String)) (k q : String)
    (h : dictGet d k = some q) :
    k ∈ (d.filter fun e => e.2 = q).map (fun e => e.1) := by
  unfold dictGet at h
  match hf : d.find? (fun p => p.1 = k) with
  | none => rw [hf] at h; simp at h
  | some e =>
    rw [hf] at h
    have he1 : e.1 = k := by simpa using List.find?_some hf
    have he2 : e.2 = q := by simpa using h
    have hmem : e ∈ d := List.mem_of_find?_eq_some hf
    exact List.mem_map.mpr ⟨e, List.mem_filter.mpr ⟨hmem, by simpa using he2⟩, he1⟩

theorem head?_dictSet (d : List (String × String)) (k v nm pth : String)
    (hhead : d.head? = some (nm, pth)) (hne : k ≠ nm) :
    (dictSet d k v).head? = some (nm, pth) := by
  cases d with
  | nil => simp at hhead
  | cons hd tl =>
    obtain rfl : hd = (nm, pth) := by simpa using hhead
    unfold dictSet
    split
    · simp only [List.map_cons, List.head?_cons]
      rw [if_neg (fun hh => hne hh.symm)]
    · simp

/-- Folding `get_sound_library`'s loop over further sounds never
disturbs the first entry of the mapping as long as no later sound has
the first entry's display name. -/
theorem soundLib_foldl_head (fs : FS) (rest : List SoundInfo)
    (lib : List (String × String)) (nm pth : String)
    (hhead : lib.head? = some (nm, pth))
    (hnames : ∀ t ∈ rest, ConfigManager.displayName t ≠ nm) :
    (rest.foldl (ConfigManager.soundLibStep fs) lib).head? = some (nm, pth) := by
  induction rest generalizing lib with
  | nil => simpa using hhead
  | cons t tl ih =>
    simp only [List.foldl_cons]
    refine ih (ConfigManager.soundLibStep fs lib t) ?_ ?_
    · unfold ConfigManager.soundLibStep
      split
      · exact head?_dictSet lib _ _ nm pth hhead (hnames t (List.mem_cons_self t tl))
      · exact hhead
    · intro u hu
      exact hnames u (List.mem_cons_of_mem t hu)

/-- Binding every key of `L` to the same non-empty path `p` makes each of
them — and any key already bound to `p` — look up to `p`. -/
theorem get_key_binding_foldl_set (L : List String) (c : Config) (p k : String)
    (hp : p ≠ "")
    (h : ConfigManager.get_key_binding c k = some p ∨ k ∈ L) :
    ConfigManager.get_key_binding
      (L.foldl (fun cfg key => ConfigManager.set_key_sound cfg key (some p)) c) k = some p := by
  induction L generalizing c with
  | nil =>
    rcases h with h | h
    · simpa using h
    · simp at h
  | cons k0 tl ih =>
    simp only [List.foldl_cons]
    refine ih (ConfigManager.set_key_sound c k0 (some p)) ?_
    have hset : ConfigManager.set_key_sound c k0 (some p) =
        { c with key_bindings := dictSet c.key_bindings k0 p } := by
      simp [ConfigManager.set_key_sound, ConfigManager.truthy, hp]
    by_cases hk : k = k0
    · left
      rw [hset]
      unfold ConfigManager.get_key_binding
      simp only
      rw [dictGet_dictSet, if_pos hk]
    · rcases h with h | h
      · left
        rw [hset]
        unfold ConfigManager.get_key_binding at h ⊢
        simp only
        rw [dictGet_dictSet, if_neg hk]
        exact h
      · rcases List.mem_cons.mp h with h1 | h1
        · exact absurd h1 hk
        · right; exact h1

/-! ## Normalization facts -/

/-- Every key of the standard vocabulary is already canonical: shared
helper for the claims below. -/
theorem normalize_key_fixed_on_standard :
    ∀ k ∈ KeyBindingManager.standard_keys, KeyBindingManager.normalize_key k = k := by
  decide

/-! ## Claim theorems -/

/-- C1: for every standard key `k` and non-empty sound path `P`, after
`set_sound(k, P)` a `get_sound(k)` returns exactly `P`.  The model is
purely functional, so the state — and hence the returned value — cannot
change until the next mutation of the binding table. -/
theorem C1_set_then_get_returns_path (c : Config) (k P : String)
    (hk : k ∈ KeyBindingManager.standard_keys) (hP : P ≠ "") :
    KeyBindingManager.get_key_sound (KeyBindingManager.set_key_sound c k (some P)).2 k = P := by
  unfold KeyBindingManager.get_key_sound KeyBindingManager.set_key_sound
    ConfigManager.set_key_sound ConfigManager.get_key_binding
  have ht : ConfigManager.truthy (some P) = true := by
    simp [ConfigManager.truthy, hP]
  simp only [ht, if_true, Option.getD_some]
  simp [dictGet_dictSet, hP]

/-- Witness for C1 at a concrete state, key and path. -/
theorem C1_witness :
    KeyBindingManager.get_key_sound
      (KeyBindingManager.set_key_sound ⟨true, [], []⟩ "a" (some "/tmp/x.mp3")).2 "a" =
      "/tmp/x.mp3" :=
  C1_set_then_get_returns_path ⟨true, [], []⟩ "a" "/tmp/x.mp3" (by decide) (by decide)

/-- C2: for every standard key `k`, after `set_sound(k, null)` a
`get_sound(k)` returns the constant `"default_sound_001"`, never null:
the deletion removes the key's entry and the lookup falls back to the
default sound id. -/
theorem C2_delete_reverts_to_default (c : Config) (k : String)
    (hk : k ∈ KeyBindingManager.standard_keys) :
    KeyBindingManager.get_key_sound (KeyBindingManager.set_key_sound c k none).2 k =
      "default_sound_001" := by
  unfold KeyBindingManager.get_key_sound KeyBindingManager.set_key_sound
    ConfigManager.set_key_sound ConfigManager.get_key_binding
  simp [ConfigManager.truthy, dictGet_dictDel, KeyBindingManager.default_sound_id]

/-- Witness for C2: deleting an existing binding of key `a`. -/
theorem C2_witness :
    KeyBindingManager.get_key_sound
      (KeyBindingManager.set_key_sound ⟨true, [("a", "/tmp/x.mp3")], []⟩ "a" none).2 "a" =
      "default_sound_001" :=
  C2_delete_reverts_to_default ⟨true, [("a", "/tmp/x.mp3")], []⟩ "a" (by decide)

/-- C4 counterexample: `"xyz"` is non-empty and recognized by none of the
normalization rules (not an alias, not a numpad key, not a function
key), yet `normalize` returns `"xyz"` itself, not the literal
`"unknown"`. -/
theorem C4_counterexample :
    dictGet KeyBindingManager.key_mapping "xyz" = none ∧
    KeyBindingManager.numpadMatch "xyz" = false ∧
    KeyBindingManager.fkeyMatch "xyz" = false ∧
    KeyBindingManager.normalize_key "xyz" = "xyz" ∧
    KeyBindingManager.normalize_key "xyz" ≠ "unknown" := by
  decide

/-- C4 amended: `normalize` returns `"unknown"` exactly for empty input;
a non-empty input recognized by none of the rules is returned as its
lowercased, whitespace-stripped form instead. -/
theorem C4_amended_unrecognized_returns_lowered_input :
    KeyBindingManager.normalize_key "" = "unknown" ∧
    ∀ key : String, key ≠ "" →
      dictGet KeyBindingManager.key_mapping (pyStrip (pyLower key)) = none →
      KeyBindingManager.numpadMatch (pyStrip (pyLower key)) = false →
      KeyBindingManager.normalize_key key = pyStrip (pyLower key) := by
  refine ⟨rfl, ?_⟩
  intro key hne hmap hnum
  unfold KeyBindingManager.normalize_key
  rw [if_neg hne]
  simp only [hmap, hnum]
  simp

/-- Witness for the amended C4 at the unrecognized input `"xyz"`. -/
theorem C4_amended_witness :
    KeyBindingManager.normalize_key "xyz" = pyStrip (pyLower "xyz") :=
  C4_amended_unrecognized_returns_lowered_input.2 "xyz" (by decide) (by decide) (by decide)

/-- C5: `add_custom_path` returns `False` — leaving the library
untouched — when the setting forbids custom paths, the file does not
exist, the path does not end in `.mp3` (case-insensitively), or a
library entry with the same path already exists; when all four checks
pass it returns `True` and appends a descriptor whose id is the path and
whose `is_custom_path` flag is set. -/
theorem C5_add_custom_path_validation (c : Config) (fs : FS) (now p : String) :
    (c.allow_custom_sound_paths = false →
      ConfigManager.add_custom_sound_path c fs now p = (false, c)) ∧
    (fsExists fs p = false →
      ConfigManager.add_custom_sound_path c fs now p = (false, c)) ∧
    (pyEndsWith (pyLower p) ".mp3" = false →
      ConfigManager.add_custom_sound_path c fs now p = (false, c)) ∧
    ((∃ s ∈ c.sound_library, s.path = p) →
      ConfigManager.add_custom_sound_path c fs now p = (false, c)) ∧
    (c.allow_custom_sound_paths = true → fsExists fs p = true →
      pyEndsWith (pyLower p) ".mp3" = true → (∀ s ∈ c.sound_library, s.path ≠ p) →
      ConfigManager.add_custom_sound_path c fs now p =
        (true, { c with sound_library := c.sound_library ++
          [⟨p, pyBasename p, p, fsGetSize fs p, now, true⟩] })) := by
  refine ⟨?_, ?_, ?_, ?_, ?_⟩
  · intro h
    simp [ConfigManager.add_custom_sound_path, h]
  · intro h
    simp [ConfigManager.add_custom_sound_path, h]
  · intro h
    simp [ConfigManager.add_custom_sound_path, h]
  · intro h
    have hany : c.sound_library.any (fun s => s.path = p) = true := by
      rw [List.any_eq_true]
      obtain ⟨s, hs, hsp⟩ := h
      exact ⟨s, hs, by simpa using hsp⟩
    simp [ConfigManager.add_custom_sound_path, hany]
  · intro h1 h2 h3 h4
    have hany : c.sound_library.any (fun s => s.path = p) = false := by
      rw [Bool.eq_false_iff]
      intro hc
      obtain ⟨s, hs, hsp⟩ := List.any_eq_true.mp hc
      exact h4 s hs (by simpa using hsp)
    simp [ConfigManager.add_custom_sound_path, ConfigManager.add_sound_to_library,
      h1, h2, h3, hany]

/-- Witness for C5: a successful addition of an existing `.mp3` path to
an empty library, and one failing case (setting disabled). -/
theorem C5_witness :
    ConfigManager.add_custom_sound_path ⟨true, [], []⟩ [("/music/a.mp3", 5)] "t" "/music/a.mp3" =
      (true, ⟨true, [], [⟨"/music/a.mp3", "a.mp3", "/music/a.mp3", 5, "t", true⟩]⟩) ∧
    ConfigManager.add_custom_sound_path ⟨false, [], []⟩ [("/music/a.mp3", 5)] "t" "/music/a.mp3" =
      (false, ⟨false, [], []⟩) :=
  ⟨(C5_add_custom_path_validation ⟨true, [], []⟩ [("/music/a.mp3", 5)] "t"
      "/music/a.mp3").2.2.2.2 rfl (by decide) (by decide) (by simp),
   (C5_add_custom_path_validation ⟨false, [], []⟩ [("/music/a.mp3", 5)] "t"
      "/music/a.mp3").1 rfl⟩

/-- C6 counterexample: two sounds are in the library, the first one's
file is missing from disk while the second one's exists.  With an empty
persisted binding table, initialization binds every standard key (here
checked at `a`) to the SECOND sound's path, not to the path of the first
sound in the library's iteration order, because `get_sound_library`
filters out entries whose file does not exist. -/
theorem C6_counterexample :
    (let c : Config :=
      ⟨true, [],
        [⟨"idA", "a.mp3", "/s/a.mp3", 1, "t", false⟩,
         ⟨"idB", "b.mp3", "/s/b.mp3", 1, "t", false⟩]⟩
     let fs : FS := [("/s/b.mp3", 1)]
     c.key_bindings = [] ∧
     c.sound_library ≠ [] ∧
     fsExists fs "/s/b.mp3" = true ∧
     c.sound_library.head?.map SoundInfo.path = some "/s/a.mp3" ∧
     "a" ∈ KeyBindingManager.standard_keys ∧
     ConfigManager.get_key_binding (KeyBindingManager.initialize_key_bindings c fs) "a" =
       some "/s/b.mp3" ∧
     ("/s/b.mp3" : String) ≠ "/s/a.mp3") := by
  set_option maxRecDepth 8000 in decide

/-- C6 amended: on first run (empty persisted binding table), if the
FIRST library sound has a non-empty filename and path and its file
exists on disk — and no later sound carries the same display name — then
after initialization every standard key is bound to that first sound's
path.  (When the first sound's file is missing, the keys are instead
bound to the first sound that survives `get_sound_library`'s
file-existence filter, or to nothing when none survives.) -/
theorem C6_amended_first_run_binds_first_existing_sound (c : Config) (fs : FS)
    (s : SoundInfo) (rest : List SoundInfo)
    (hb : c.key_bindings = [])
    (hlib : c.sound_library = s :: rest)
    (hname : s.filename ≠ "") (hpath : s.path ≠ "")
    (hex : fsExists fs s.path = true)
    (hnames : ∀ t ∈ rest, ConfigManager.displayName t ≠ ConfigManager.displayName s) :
    ∀ k ∈ KeyBindingManager.standard_keys,
      ConfigManager.get_key_binding (KeyBindingManager.initialize_key_bindings c fs) k =
        some s.path := by
  intro k hk
  unfold KeyBindingManager.initialize_key_bindings
  rw [if_neg (by simp [hb])]
  have h1 : ConfigManager.get_sound_library c fs =
      rest.foldl (ConfigManager.soundLibStep fs)
        [(ConfigManager.displayName s, s.path)] := by
    unfold ConfigManager.get_sound_library
    rw [hlib]
    simp only [List.foldl_cons]
    have hstep : ConfigManager.soundLibStep fs [] s =
        [(ConfigManager.displayName s, s.path)] := by
      unfold ConfigManager.soundLibStep
      rw [if_pos ⟨hname, hpath, hex⟩]
      rfl
    rw [hstep]
  have h2 : (ConfigManager.get_sound_library c fs).head? =
      some (ConfigManager.displayName s, s.path) := by
    rw [h1]
    exact soundLib_foldl_head fs rest _ _ _ (by simp) hnames
  match hsl : ConfigManager.get_sound_library c fs with
  | [] => rw [hsl] at h2; simp at h2
  | (nm, p) :: tl =>
    rw [hsl] at h2
    simp only [List.head?_cons, Option.some.injEq, Prod.mk.injEq] at h2
    rw [h2.2]
    exact get_key_binding_foldl_set KeyBindingManager.standard_keys c s.path k
      hpath (Or.inr hk)

/-- Witness for the amended C6: a single managed sound whose file
exists; after first-run initialization the key `a` is bound to its
path. -/
theorem C6_witness :
    ConfigManager.get_key_binding
      (KeyBindingManager.initialize_key_bindings
        ⟨true, [], [⟨"idA", "a.mp3", "/s/a.mp3", 1, "t", false⟩]⟩
        [("/s/a.mp3", 1)]) "a" = some "/s/a.mp3" :=
  C6_amended_first_run_binds_first_existing_sound
    ⟨true, [], [⟨"idA", "a.mp3", "/s/a.mp3", 1, "t", false⟩]⟩
    [("/s/a.mp3", 1)] ⟨"idA", "a.mp3", "/s/a.mp3", 1, "t", false⟩ []
    rfl rfl (by decide) (by decide) (by decide) (by simp) "a" (by decide)

/-- C7: `load_config` returns the supplied default — and, being total,
cannot raise — whenever the file is absent/unreadable (`contents = none`)
or its contents fail to parse as JSON. -/
theorem C7_load_returns_default_on_failure {D : Type} (contents : Option String)
    (parse : String → Option D) (default_config : D)
    (h : contents = none ∨ ∃ s, contents = some s ∧ parse s = none) :
    ConfigManager.load_config contents parse default_config = default_config := by
  rcases h with h | ⟨s, hs, hp⟩ <;> subst_vars <;> simp [ConfigManager.load_config, *]

/-- Witness for C7: malformed contents parse to `none` and the default
(42) is returned. -/
theorem C7_witness :
    ConfigManager.load_config (some "not json") (fun _ => (none : Option Nat)) 42 = 42 :=
  C7_load_returns_default_on_failure (some "not json") (fun _ => none) 42
    (Or.inr ⟨"not json", rfl, rfl⟩)

/-- C8 finding: the alias table itself maps `" "` to `"space"`, but
`strip()` runs before the table lookup, so `normalize(" ")` actually
returns `""` — and renormalizing gives `"unknown"`.  Idempotence over
the alias-table spellings therefore fails at `" "`, contradicting both
the claim and the code's own (unreachable) table entry. -/
theorem C8_idempotence_fails_at_space :
    dictGet KeyBindingManager.key_mapping " " = some "space" ∧
    KeyBindingManager.normalize_key " " = "" ∧
    KeyBindingManager.normalize_key (KeyBindingManager.normalize_key " ") = "unknown" ∧
    KeyBindingManager.normalize_key (KeyBindingManager.normalize_key " ") ≠
      KeyBindingManager.normalize_key " " := by
  decide

/-- C3: when `remove_sound_from_library` is called with the identifier
`q` and finds the sound `s` (first match on id or path), whose file
exists, then (i) it returns `True`; (ii) every standard key whose
binding value is `q` subsequently resolves, through `get_sound`, to the
default sound identifier; and (iii) the sound's physical file has been
deleted if and only if its `is_custom_path` flag is false and its
filename is not the bundled default's filename. -/
theorem C3_remove_bound_sound (c : Config) (fs : FS) (q : String) (s : SoundInfo)
    (lib2 : List SoundInfo)
    (hfind : ConfigManager.removeFirstMatch q c.sound_library = some (s, lib2))
    (hex : fsExists fs s.path = true) :
    (ConfigManager.remove_sound_from_library c fs q).1 = true ∧
    (∀ k ∈ KeyBindingManager.standard_keys, dictGet c.key_bindings k = some q →
      KeyBindingManager.get_key_sound (ConfigManager.remove_sound_from_library c fs q).2.1 k =
        KeyBindingManager.default_sound_id) ∧
    (fsExists (ConfigManager.remove_sound_from_library c fs q).2.2 s.path = false ↔
      (s.is_custom_path = false ∧
        pyBasename s.path ≠ ConfigManager.bundledDefaultFilename)) := by
  unfold ConfigManager.remove_sound_from_library
  rw [hfind]
  refine ⟨rfl, ?_, ?_⟩
  · intro k hk hbound
    unfold KeyBindingManager.get_key_sound ConfigManager.get_key_binding
    rw [normalize_key_fixed_on_standard k hk]
    simp only
    rw [dictGet_foldl_dictDel, if_pos (mem_keys_to_remove c.key_bindings k q hbound)]
  · simp only
    by_cases hcond : s.is_custom_path = false ∧ fsExists fs s.path = true ∧
        pyBasename s.path ≠ ConfigManager.bundledDefaultFilename
    · rw [if_pos hcond, fsExists_fsDelete]
      simp only [true_iff]
      exact ⟨hcond.1, hcond.2.2⟩
    · rw [if_neg hcond, hex]
      simp only [Bool.true_eq_false, false_iff]
      intro ⟨h1, h2⟩
      exact hcond ⟨h1, hex, h2⟩

/-- Witness for C3: removing, by its path, a managed (non-custom) sound
bound to key `a`; the binding falls back to the default sound id and the
file is gone. -/
theorem C3_witness :
    (ConfigManager.remove_sound_from_library
        ⟨true, [("a", "/s/x.mp3")], [⟨"/s/x.mp3", "x.mp3", "/s/x.mp3", 7, "t", false⟩]⟩
        [("/s/x.mp3", 7)] "/s/x.mp3").1 = true ∧
    KeyBindingManager.get_key_sound
      (ConfigManager.remove_sound_from_library
        ⟨true, [("a", "/s/x.mp3")], [⟨"/s/x.mp3", "x.mp3", "/s/x.mp3", 7, "t", false⟩]⟩
        [("/s/x.mp3", 7)] "/s/x.mp3").2.1 "a" = KeyBindingManager.default_sound_id := by
  have h := C3_remove_bound_sound
    ⟨true, [("a", "/s/x.mp3")], [⟨"/s/x.mp3", "x.mp3", "/s/x.mp3", 7, "t", false⟩]⟩
    [("/s/x.mp3", 7)] "/s/x.mp3" ⟨"/s/x.mp3", "x.mp3", "/s/x.mp3", 7, "t", false⟩ []
    (by decide) (by decide)
  exact ⟨h.1, h.2.1 "a" (by decide) (by decide)⟩

/-- C10: `remove_sound_from_library` leaves every key binding whose
stored value differs from the exact identifier passed in unchanged; in
particular, when a descriptor's id differs from its path and removal is
invoked with the id while keys are bound to the path, those bindings
survive. -/
theorem C10_remove_only_matching_bindings (c : Config) (fs : FS) (q k v : String)
    (hnodup : (c.key_bindings.map Prod.fst).Nodup)
    (hbound : dictGet c.key_bindings k = some v) (hne : v ≠ q) :
    dictGet ((ConfigManager.remove_sound_from_library c fs q).2.1).key_bindings k = some v := by
  unfold ConfigManager.remove_sound_from_library
  match hfind : ConfigManager.removeFirstMatch q c.sound_library with
  | none => exact hbound
  | some (s, lib2) =>
    simp only
    rw [dictGet_foldl_dictDel]
    rw [if_neg ?notMem]
    · exact hbound
    case notMem =>
      intro hmem
      obtain ⟨e, hefil, he1⟩ := List.mem_map.mp hmem
      obtain ⟨hemem, heq⟩ := List.mem_filter.mp hefil
      simp only [decide_eq_true_eq] at heq
      -- the entry found by `dictGet` and the filtered entry share the key `k`
      unfold dictGet at hbound
      match hf : c.key_bindings.find? (fun p => p.1 = k) with
      | none => rw [hf] at hbound; simp at hbound
      | some f =>
        rw [hf] at hbound
        have hf1 : f.1 = k := by simpa using List.find?_some hf
        have hf2 : f.2 = v := by simpa using hbound
        have hfmem : f ∈ c.key_bindings := List.mem_of_find?_eq_some hf
        have : e = f :=
          List.inj_on_of_nodup_map hnodup hemem hfmem (by rw [he1, hf1])
        rw [this, hf2] at heq
        exact hne heq

/-- Witness for C10: the library descriptor has id `soundA` but path
`/s/a.mp3`; key `a` is bound to the path, and removal by the id leaves
that binding intact. -/
theorem C10_witness :
    dictGet ((ConfigManager.remove_sound_from_library
        ⟨true, [("a", "/s/a.mp3")], [⟨"soundA", "a.mp3", "/s/a.mp3", 7, "t", false⟩]⟩
        [("/s/a.mp3", 7)] "soundA").2.1).key_bindings "a" = some "/s/a.mp3" :=
  C10_remove_only_matching_bindings
    ⟨true, [("a", "/s/a.mp3")], [⟨"soundA", "a.mp3", "/s/a.mp3", 7, "t", false⟩]⟩
    [("/s/a.mp3", 7)] "soundA" "a" "/s/a.mp3" (by decide) (by decide) (by decide)

/-- C9: every member of the standard-key vocabulary is a fixed point of
`normalize`, so already-canonical keys are never remapped before
lookup. -/
theorem C9_standard_keys_are_fixed_points :
    ∀ k ∈ KeyBindingManager.standard_keys, KeyBindingManager.normalize_key k = k :=
  normalize_key_fixed_on_standard

/-- Witness for C9 at the concrete standard key `caps_lock`. -/
theorem C9_witness : KeyBindingManager.normalize_key "caps_lock" = "caps_lock" :=
  C9_standard_keys_are_fixed_points "caps_lock" (by decide)

end NoisyKeyboard
